import Mathlib

/-!
Verification of the SkyProject health-check aggregation engine.

The development shallowly embeds the aggregation core of the repository:
the vote/summary data model (`core/models.py`), the team and department
rollups `update_team_summary` / `update_department_summary`
(`core/views.py`), the trend resolver (`TeamSummary.get_previous_summary`,
`TeamSummary.calculate_trend`), the participation calculator
(`Session.get_participation_rate`), the latest-health query
(`Team.get_latest_health_status`) and the vote upsert
(`core/api/views.py` `submit_vote`).

Django querysets over the relational store are embedded as explicit lists
inside a `Store` record; percentages (Python floats produced by exact
small-integer divisions) are embedded as rationals.
-/

namespace SkyProject

/-- Traffic-light vote values (`Vote.VOTE_CHOICES` in `core/models.py`). -/
inductive TLColor where
  | green
  | amber
  | red
deriving DecidableEq

/-- Progress-note values (`Vote.PROGRESS_CHOICES` in `core/models.py`). -/
inductive Progress where
  | better
  | same
  | worse
deriving DecidableEq

/-- Trend classification returned by `TeamSummary.calculate_trend`. -/
inductive Trend where
  | improving
  | declining
  | stable
deriving DecidableEq

/-- A user row: `User.team` is a nullable foreign key (a user belongs to at
most one team), referenced here by team id. -/
structure UserRec where
  id : Nat
  team : Option Nat
deriving DecidableEq

/-- A team row: `Team.department` (`core/models.py` line 309) is a
non-nullable foreign key, so every team has a department id. -/
structure TeamRec where
  id : Nat
  department : Nat
deriving DecidableEq

/-- A session row with its date and active flag (`Session` model). Dates
are embedded as integers; only their ordering matters to the engine. -/
structure SessionRec where
  id : Nat
  date : Int
  is_active : Bool
deriving DecidableEq

/-- A vote row (`Vote` model): one user's traffic-light value and progress
note for one card in one session. -/
structure Vote where
  user : Nat
  card : Nat
  session : Nat
  value : TLColor
  progress_note : Progress
deriving DecidableEq

/-- A team summary row (`TeamSummary` model). -/
structure TeamSummary where
  team : Nat
  session : Nat
  card : Nat
  average_vote : TLColor
  progress_summary : Progress
  green_percentage : ℚ
  amber_percentage : ℚ
  red_percentage : ℚ
deriving DecidableEq

/-- A department summary row (`DepartmentSummary` model). -/
structure DepartmentSummary where
  department : Nat
  session : Nat
  card : Nat
  average_vote : TLColor
  progress_summary : Progress
  green_percentage : ℚ
  amber_percentage : ℚ
  red_percentage : ℚ
deriving DecidableEq

/-- The relational store seen by the engine: each Django table is a list
of rows. -/
@[ext]
structure Store where
  users : List UserRec
  teams : List TeamRec
  sessions : List SessionRec
  votes : List Vote
  teamSummaries : List TeamSummary
  deptSummaries : List DepartmentSummary
deriving DecidableEq

/-- The team of a user id, as resolved by the `user__team` join. -/
def userTeam (st : Store) (uid : Nat) : Option Nat :=
  match st.users.find? (fun u => u.id == uid) with
  | some u => u.team
  | none => none

/-- The department of a team id, as resolved by the `team__department`
join. -/
def teamDept (st : Store) (tid : Nat) : Option Nat :=
  (st.teams.find? (fun t => t.id == tid)).map (fun t => t.department)

/-- The date of a session id (`self.session.date`). -/
def sessionDate (st : Store) (sid : Nat) : Option Int :=
  (st.sessions.find? (fun s => s.id == sid)).map (fun s => s.date)

/-- Django `update_or_create`: replace the row matching the key predicate
`k` if one exists, otherwise append the new row. -/
def upsertBy {α : Type} (k : α → Bool) (row : α) (rows : List α) : List α :=
  if rows.any k then rows.map (fun r => if k r then row else r) else rows ++ [row]

/-- The unique key of a `Vote` row: `unique_together (user, card, session)`. -/
def voteKey (user card session : Nat) (v : Vote) : Bool :=
  v.user == user && v.card == card && v.session == session

/-- The unique key of a `TeamSummary` row: `unique_together (team, card,
session)`. -/
def tsKey (team session card : Nat) (r : TeamSummary) : Bool :=
  r.team == team && r.session == session && r.card == card

/-- The unique key of a `DepartmentSummary` row. -/
def dsKey (department session card : Nat) (r : DepartmentSummary) : Bool :=
  r.department == department && r.session == session && r.card == card

/-- The majority-wins status chain inlined identically at
`core/views.py` lines 1243-1250 (team rollup) and lines 1339-1346
(department rollup): green wins ties over amber, amber over red. -/
def classify (green_pct amber_pct red_pct : ℚ) : TLColor :=
  if green_pct ≥ amber_pct ∧ green_pct ≥ red_pct then TLColor.green
  else if amber_pct ≥ green_pct ∧ amber_pct ≥ red_pct then TLColor.amber
  else TLColor.red

/-- The spec's Status Classifier rule, written from the spec text: compare
green first (green if green ≥ amber and green ≥ red), then amber (amber if
amber ≥ green and amber ≥ red), else red. Stated separately from
`classify` so the code can be checked against the spec's words. -/
def specClassify (green amber red : ℚ) : TLColor :=
  if green ≥ amber ∧ green ≥ red then TLColor.green
  else if amber ≥ green ∧ amber ≥ red then TLColor.amber
  else TLColor.red

/-- The majority-wins progress chain of `update_team_summary` /
`update_department_summary`: better wins ties over same, same over worse. -/
def classifyProgress (better_count same_count worse_count : Nat) : Progress :=
  if better_count ≥ same_count ∧ better_count ≥ worse_count then Progress.better
  else if same_count ≥ better_count ∧ same_count ≥ worse_count then Progress.same
  else Progress.worse

/-- The vote set read by `update_team_summary`:
`Vote.objects.filter(user__team=team, session=session, card=card)`. -/
def teamVotes (st : Store) (team : TeamRec) (session card : Nat) : List Vote :=
  st.votes.filter (fun v =>
    userTeam st v.user == some team.id && v.session == session && v.card == card)

/-- The `TeamSummary` row computed by `update_team_summary` from the
current vote set: per-value percentages `(count / total) * 100` (with the
source's `if total_votes > 0 else 0` guard), majority status, and
majority progress note. -/
def computeTeamRow (st : Store) (team : TeamRec) (session card : Nat) : TeamSummary :=
  let votes := teamVotes st team session card
  let total_votes := votes.length
  let green_pct : ℚ :=
    if 0 < total_votes then
      ((votes.countP (fun v => v.value == TLColor.green) : ℚ) / (total_votes : ℚ)) * 100
    else 0
  let amber_pct : ℚ :=
    if 0 < total_votes then
      ((votes.countP (fun v => v.value == TLColor.amber) : ℚ) / (total_votes : ℚ)) * 100
    else 0
  let red_pct : ℚ :=
    if 0 < total_votes then
      ((votes.countP (fun v => v.value == TLColor.red) : ℚ) / (total_votes : ℚ)) * 100
    else 0
  let better_count := votes.countP (fun v => v.progress_note == Progress.better)
  let same_count := votes.countP (fun v => v.progress_note == Progress.same)
  let worse_count := votes.countP (fun v => v.progress_note == Progress.worse)
  { team := team.id
    session := session
    card := card
    average_vote := classify green_pct amber_pct red_pct
    progress_summary := classifyProgress better_count same_count worse_count
    green_percentage := green_pct
    amber_percentage := amber_pct
    red_percentage := red_pct }

/-- The team-summary set read by `update_department_summary`:
`TeamSummary.objects.filter(team__department=department, session=session,
card=card)`. -/
def deptTeamSummaries (st : Store) (department session card : Nat) : List TeamSummary :=
  st.teamSummaries.filter (fun r =>
    teamDept st r.team == some department && r.session == session && r.card == card)

/-- The `DepartmentSummary` row computed by `update_department_summary`:
each percentage is the Django `Avg` (sum divided by row count) of the
teams' corresponding percentages, status by the majority chain on the
means, progress by the majority chain on the teams' progress summaries. -/
def computeDeptRow (st : Store) (department session card : Nat) : DepartmentSummary :=
  let team_summaries := deptTeamSummaries st department session card
  let n := team_summaries.length
  let green_pct : ℚ := ((team_summaries.map (fun r => r.green_percentage)).sum) / (n : ℚ)
  let amber_pct : ℚ := ((team_summaries.map (fun r => r.amber_percentage)).sum) / (n : ℚ)
  let red_pct : ℚ := ((team_summaries.map (fun r => r.red_percentage)).sum) / (n : ℚ)
  let better_count := team_summaries.countP (fun r => r.progress_summary == Progress.better)
  let same_count := team_summaries.countP (fun r => r.progress_summary == Progress.same)
  let worse_count := team_summaries.countP (fun r => r.progress_summary == Progress.worse)
  { department := department
    session := session
    card := card
    average_vote := classify green_pct amber_pct red_pct
    progress_summary := classifyProgress better_count same_count worse_count
    green_percentage := green_pct
    amber_percentage := amber_pct
    red_percentage := red_pct }

/-- `update_department_summary(department, session, card)` from
`core/views.py` lines 1292-1380: if no team summary matches, no write;
otherwise insert-or-replace the computed row keyed by (department,
session, card). -/
def update_department_summary (department session card : Nat) (st : Store) : Store :=
  if (deptTeamSummaries st department session card).isEmpty then st
  else
    { st with
      deptSummaries :=
        upsertBy (dsKey department session card)
          (computeDeptRow st department session card) st.deptSummaries }

/-- `update_team_summary(team, session, card)` from `core/views.py` lines
1187-1290: if no vote matches, no write; otherwise insert-or-replace the
computed row keyed by (team, session, card) and then cascade into the
department rollup.  The source guards the cascade with
`if team.department:`, which is always truthy because `Team.department`
is a non-nullable foreign key, so the cascade is unconditional here. -/
def update_team_summary (team : TeamRec) (session card : Nat) (st : Store) : Store :=
  if (teamVotes st team session card).isEmpty then st
  else
    update_department_summary team.department session card
      { st with
        teamSummaries :=
          upsertBy (tsKey team.id session card)
            (computeTeamRow st team session card) st.teamSummaries }

/-- `submit_vote` from `core/api/views.py` lines 29-57: Django
`update_or_create` of the `Vote` row keyed by (user, card, session). -/
def submit_vote (st : Store) (user card session : Nat) (value : TLColor) (note : Progress) :
    Store :=
  { st with
    votes :=
      upsertBy (voteKey user card session)
        { user := user, card := card, session := session
          value := value, progress_note := note } st.votes }

/-- Numeric score of a traffic-light value, the `score_map` of
`calculate_trend`: green 3, amber 2, red 1. -/
def score : TLColor → Nat
  | TLColor.green => 3
  | TLColor.amber => 2
  | TLColor.red => 1

/-- `Session.objects.filter(date__lt=d).order_by(date descending)`:
the sessions strictly before date `d`, newest first. -/
def sessionsBefore (st : Store) (d : Int) : List SessionRec :=
  List.insertionSort (fun a b => b.date ≤ a.date) (st.sessions.filter (fun s => s.date < d))

/-- `TeamSummary.get_previous_summary` (`core/models.py` lines 775-797):
walk the strictly earlier sessions newest-first and return the first
matching (team, card, session) summary, if any.  The outer `match` is an
embedding guard: in Django `self.session` is a foreign key, so the date
always resolves. -/
def get_previous_summary (st : Store) (ts : TeamSummary) : Option TeamSummary :=
  match sessionDate st ts.session with
  | none => none
  | some d =>
    (sessionsBefore st d).findSome? (fun s =>
      st.teamSummaries.find? (fun r =>
        r.team == ts.team && r.card == ts.card && r.session == s.id))

/-- `TeamSummary.calculate_trend` (`core/models.py` lines 799-831):
none without a previous summary, otherwise compare scores. -/
def calculate_trend (st : Store) (ts : TeamSummary) : Option Trend :=
  match get_previous_summary st ts with
  | none => none
  | some prev =>
    if score ts.average_vote > score prev.average_vote then some Trend.improving
    else if score ts.average_vote < score prev.average_vote then some Trend.declining
    else some Trend.stable

/-- `Session.objects.filter(is_active=True).order_by(date descending).first()`. -/
def latestActiveSession (st : Store) : Option SessionRec :=
  (List.insertionSort (fun a b => b.date ≤ a.date)
    (st.sessions.filter (fun s => s.is_active))).head?

/-- `Team.get_latest_health_status` (`core/models.py` lines 359-397):
count the team's summaries in the latest active session by average vote;
red if strictly greatest, else amber if strictly greatest, else green if
any green summary exists, else none. -/
def get_latest_health_status (st : Store) (team : Nat) : Option TLColor :=
  match latestActiveSession st with
  | none => none
  | some latest =>
    let team_summaries :=
      st.teamSummaries.filter (fun r => r.team == team && r.session == latest.id)
    if team_summaries.isEmpty then none
    else
      let red_count := team_summaries.countP (fun r => r.average_vote == TLColor.red)
      let amber_count := team_summaries.countP (fun r => r.average_vote == TLColor.amber)
      let green_count := team_summaries.countP (fun r => r.average_vote == TLColor.green)
      if red_count > amber_count ∧ red_count > green_count then some TLColor.red
      else if amber_count > red_count ∧ amber_count > green_count then some TLColor.amber
      else if green_count > 0 then some TLColor.green
      else none

/-- Count of eligible users in a population scope, as counted by
`Session.get_participation_rate`: the users of the given team, or all
users. -/
def eligibleCount (st : Store) (team : Option Nat) : Nat :=
  match team with
  | some t => (st.users.filter (fun u => u.team == some t)).length
  | none => st.users.length

/-- Count of distinct users with at least one vote in the session within
the same scope (`values(user).distinct().count()`). -/
def participantCount (st : Store) (session : Nat) (team : Option Nat) : Nat :=
  match team with
  | some t =>
    (((st.votes.filter (fun v =>
        v.session == session && userTeam st v.user == some t)).map (fun v => v.user)).dedup).length
  | none =>
    (((st.votes.filter (fun v => v.session == session)).map (fun v => v.user)).dedup).length

/-- `Session.get_participation_rate` (`core/models.py` lines 447-479):
0 when the eligible population is empty, otherwise
`(participants / eligible) * 100`. -/
def get_participation_rate (st : Store) (session : Nat) (team : Option Nat) : ℚ :=
  if eligibleCount st team == 0 then 0
  else ((participantCount st session team : ℚ) / (eligibleCount st team : ℚ)) * 100

/-- Read a `TeamSummary` row back by its unique key. -/
def findTeamSummary (st : Store) (team session card : Nat) : Option TeamSummary :=
  st.teamSummaries.find? (tsKey team session card)

/-- Read a `DepartmentSummary` row back by its unique key. -/
def findDeptSummary (st : Store) (department session card : Nat) : Option DepartmentSummary :=
  st.deptSummaries.find? (dsKey department session card)

/-- Count of `Vote` rows holding a given (user, card, session) key. -/
def countVotes (l : List Vote) (user card session : Nat) : Nat :=
  l.countP (voteKey user card session)

/-- No `TeamSummary` row matches (team of `ts`, card of `ts`, session
`s`): the condition under which `get_previous_summary` skips session `s`. -/
def noSummaryFor (st : Store) (ts : TeamSummary) (s : SessionRec) : Prop :=
  ∀ r ∈ st.teamSummaries, ¬(r.team = ts.team ∧ r.card = ts.card ∧ r.session = s.id)

/-! ### Generic lemmas about the upsert primitive -/

theorem upsertBy_mem {α : Type} (k : α → Bool) (row : α) (l : List α) :
    row ∈ upsertBy k row l := by
  unfold upsertBy
  split
  · next h =>
    rcases List.any_eq_true.mp h with ⟨a, ha, hka⟩
    refine List.mem_map.mpr ⟨a, ha, ?_⟩
    simp [hka]
  · exact List.mem_append_right _ (List.mem_singleton.mpr rfl)

theorem find?_upsertBy {α : Type} {k : α → Bool} {row : α} (h : k row = true)
    (l : List α) : (upsertBy k row l).find? k = some row := by
  induction l with
  | nil => simp [upsertBy, h]
  | cons a t ih =>
    by_cases hka : k a = true
    · have hany : (a :: t).any k = true := List.any_eq_true.mpr ⟨a, List.mem_cons_self a t, hka⟩
      simp only [upsertBy, hany, if_true, List.map_cons, hka, if_pos]
      simp [List.find?_cons, h]
    · have hka' : k a = false := Bool.eq_false_iff.mpr hka
      by_cases hat : t.any k = true
      · have hany : (a :: t).any k = true := by simp [List.any_cons, hat]
        have ihres : (t.map (fun r => if k r then row else r)).find? k = some row := by
          have := ih
          simpa [upsertBy, hat] using this
        simp only [upsertBy, hany, if_true, List.map_cons, hka', if_neg, Bool.false_eq_true,
          not_false_iff]
        simp [List.find?_cons, hka', ihres]
      · have hat' : t.any k = false := Bool.eq_false_iff.mpr hat
        have hany : (a :: t).any k = false := by simp [List.any_cons, hka', hat']
        have ihres : (t ++ [row]).find? k = some row := by
          have := ih
          simpa [upsertBy, hat'] using this
        simp only [upsertBy, hany, Bool.false_eq_true, if_false, List.cons_append]
        simp [List.find?_cons, hka', ihres]

theorem upsertBy_idem {α : Type} {k : α → Bool} {row : α} (h : k row = true)
    (l : List α) : upsertBy k row (upsertBy k row l) = upsertBy k row l := by
  by_cases hany : l.any k = true
  · have h1 : upsertBy k row l = l.map (fun r => if k r then row else r) := by
      simp [upsertBy, hany]
    have hany2 : (l.map (fun r => if k r then row else r)).any k = true := by
      rcases List.any_eq_true.mp hany with ⟨a, ha, hka⟩
      refine List.any_eq_true.mpr ⟨row, ?_, h⟩
      exact List.mem_map.mpr ⟨a, ha, by simp [hka]⟩
    rw [h1]
    simp only [upsertBy, hany2, if_true, List.map_map]
    refine List.map_congr_left ?_
    intro a _
    by_cases hka : k a = true
    · simp [Function.comp, hka, h]
    · have hka' : k a = false := Bool.eq_false_iff.mpr hka
      simp [Function.comp, hka']
  · have hany' : l.any k = false := Bool.eq_false_iff.mpr hany
    have h1 : upsertBy k row l = l ++ [row] := by simp [upsertBy, hany']
    have hany2 : (l ++ [row]).any k = true :=
      List.any_eq_true.mpr ⟨row, List.mem_append_right _ (List.mem_singleton.mpr rfl), h⟩
    rw [h1]
    simp only [upsertBy, hany2, if_true, List.map_append, List.map_cons, h, if_pos,
      List.map_nil]
    have hmap : l.map (fun r => if k r then row else r) = l := by
      have hid : l.map (fun r => if k r then row else r) = l.map id := by
        refine List.map_congr_left ?_
        intro a ha
        have hka : k a = false := by
          by_contra hcon
          have : l.any k = true :=
            List.any_eq_true.mpr ⟨a, ha, by simpa using hcon⟩
          simp [hany'] at this
        simp [hka]
      rw [hid, List.map_id]
    rw [hmap]

theorem countP_upsertBy {α : Type} {k : α → Bool} {row : α} (h : k row = true)
    (l : List α) (hle : l.countP k ≤ 1) : (upsertBy k row l).countP k = 1 := by
  by_cases hany : l.any k = true
  · have hpos : 0 < l.countP k := by
      rcases List.any_eq_true.mp hany with ⟨a, ha, hka⟩
      exact List.countP_pos_iff.mpr ⟨a, ha, hka⟩
    have heq : (upsertBy k row l).countP k = l.countP k := by
      simp only [upsertBy, hany, if_true, List.countP_map]
      refine List.countP_congr ?_
      intro a _
      by_cases hka : k a = true
      · simp [Function.comp, hka, h]
      · have hka' : k a = false := Bool.eq_false_iff.mpr hka
        simp [Function.comp, hka']
    omega
  · have hany' : l.any k = false := Bool.eq_false_iff.mpr hany
    have hzero : l.countP k = 0 := by
      refine List.countP_eq_zero.mpr ?_
      intro a ha
      by_contra hcon
      have : l.any k = true := List.any_eq_true.mpr ⟨a, ha, by simpa using hcon⟩
      simp [hany'] at this
    simp [upsertBy, hany', List.countP_append, hzero, List.countP_cons, h]

theorem countP_upsertBy_other {α : Type} {k k' : α → Bool} {row : α}
    (hk' : k' row = false) (hdisj : ∀ r, k r = true → k' r = false)
    (l : List α) : (upsertBy k row l).countP k' = l.countP k' := by
  by_cases hany : l.any k = true
  · simp only [upsertBy, hany, if_true, List.countP_map]
    refine List.countP_congr ?_
    intro a _
    by_cases hka : k a = true
    · simp [Function.comp, hka, hdisj a hka, hk']
    · have hka' : k a = false := Bool.eq_false_iff.mpr hka
      simp [Function.comp, hka']
  · have hany' : l.any k = false := Bool.eq_false_iff.mpr hany
    simp [upsertBy, hany', List.countP_append, List.countP_cons, hk']

/-! ### Partition lemmas: every vote value / average vote is one of the
three traffic-light colors -/

theorem countP_vote_partition (l : List Vote) :
    l.countP (fun v => v.value == TLColor.green)
      + l.countP (fun v => v.value == TLColor.amber)
      + l.countP (fun v => v.value == TLColor.red) = l.length := by
  induction l with
  | nil => rfl
  | cons v t ih =>
    cases hv : v.value <;> simp [List.countP_cons, hv] <;> omega

/-! ### Unfolding and congruence lemmas for the two rollup writers -/

theorem computeTeamRow_team (st : Store) (team : TeamRec) (session card : Nat) :
    (computeTeamRow st team session card).team = team.id := rfl

theorem computeTeamRow_session (st : Store) (team : TeamRec) (session card : Nat) :
    (computeTeamRow st team session card).session = session := rfl

theorem computeTeamRow_card (st : Store) (team : TeamRec) (session card : Nat) :
    (computeTeamRow st team session card).card = card := rfl

theorem computeDeptRow_department (st : Store) (d session card : Nat) :
    (computeDeptRow st d session card).department = d := rfl

theorem computeDeptRow_session (st : Store) (d session card : Nat) :
    (computeDeptRow st d session card).session = session := rfl

theorem computeDeptRow_card (st : Store) (d session card : Nat) :
    (computeDeptRow st d session card).card = card := rfl

theorem tsKey_computeTeamRow (st : Store) (team : TeamRec) (session card : Nat) :
    tsKey team.id session card (computeTeamRow st team session card) = true := by
  simp [tsKey, computeTeamRow_team, computeTeamRow_session, computeTeamRow_card]

theorem dsKey_computeDeptRow (st : Store) (d session card : Nat) :
    dsKey d session card (computeDeptRow st d session card) = true := by
  simp [dsKey, computeDeptRow_department, computeDeptRow_session, computeDeptRow_card]

theorem update_department_summary_of_empty {st : Store} {d session card : Nat}
    (h : (deptTeamSummaries st d session card).isEmpty = true) :
    update_department_summary d session card st = st := by
  simp [update_department_summary, h]

theorem update_department_summary_of_nonempty {st : Store} {d session card : Nat}
    (h : (deptTeamSummaries st d session card).isEmpty = false) :
    update_department_summary d session card st =
      { st with
        deptSummaries :=
          upsertBy (dsKey d session card) (computeDeptRow st d session card)
            st.deptSummaries } := by
  simp [update_department_summary, h]

theorem update_team_summary_of_empty {st : Store} {team : TeamRec} {session card : Nat}
    (h : (teamVotes st team session card).isEmpty = true) :
    update_team_summary team session card st = st := by
  simp [update_team_summary, h]

theorem update_team_summary_of_nonempty {st : Store} {team : TeamRec} {session card : Nat}
    (h : (teamVotes st team session card).isEmpty = false) :
    update_team_summary team session card st =
      update_department_summary team.department session card
        { st with
          teamSummaries :=
            upsertBy (tsKey team.id session card) (computeTeamRow st team session card)
              st.teamSummaries } := by
  simp [update_team_summary, h]

theorem udds_users (d session card : Nat) (st : Store) :
    (update_department_summary d session card st).users = st.users := by
  unfold update_department_summary
  split <;> rfl

theorem udds_teams (d session card : Nat) (st : Store) :
    (update_department_summary d session card st).teams = st.teams := by
  unfold update_department_summary
  split <;> rfl

theorem udds_sessions (d session card : Nat) (st : Store) :
    (update_department_summary d session card st).sessions = st.sessions := by
  unfold update_department_summary
  split <;> rfl

theorem udds_votes (d session card : Nat) (st : Store) :
    (update_department_summary d session card st).votes = st.votes := by
  unfold update_department_summary
  split <;> rfl

theorem udds_teamSummaries (d session card : Nat) (st : Store) :
    (update_department_summary d session card st).teamSummaries = st.teamSummaries := by
  unfold update_department_summary
  split <;> rfl

theorem uts_users (team : TeamRec) (session card : Nat) (st : Store) :
    (update_team_summary team session card st).users = st.users := by
  unfold update_team_summary
  split
  · rfl
  · rw [udds_users]

theorem uts_teams (team : TeamRec) (session card : Nat) (st : Store) :
    (update_team_summary team session card st).teams = st.teams := by
  unfold update_team_summary
  split
  · rfl
  · rw [udds_teams]

theorem uts_sessions (team : TeamRec) (session card : Nat) (st : Store) :
    (update_team_summary team session card st).sessions = st.sessions := by
  unfold update_team_summary
  split
  · rfl
  · rw [udds_sessions]

theorem uts_votes (team : TeamRec) (session card : Nat) (st : Store) :
    (update_team_summary team session card st).votes = st.votes := by
  unfold update_team_summary
  split
  · rfl
  · rw [udds_votes]

theorem userTeam_congr {st st' : Store} (h : st'.users = st.users) (uid : Nat) :
    userTeam st' uid = userTeam st uid := by
  unfold userTeam
  rw [h]

theorem teamDept_congr {st st' : Store} (h : st'.teams = st.teams) (tid : Nat) :
    teamDept st' tid = teamDept st tid := by
  unfold teamDept
  rw [h]

theorem teamVotes_congr {st st' : Store} (hu : st'.users = st.users)
    (hv : st'.votes = st.votes) (team : TeamRec) (session card : Nat) :
    teamVotes st' team session card = teamVotes st team session card := by
  unfold teamVotes
  rw [hv]
  refine List.filter_congr ?_
  intro v _
  rw [userTeam_congr hu]

theorem computeTeamRow_congr {st st' : Store} (hu : st'.users = st.users)
    (hv : st'.votes = st.votes) (team : TeamRec) (session card : Nat) :
    computeTeamRow st' team session card = computeTeamRow st team session card := by
  unfold computeTeamRow
  rw [teamVotes_congr hu hv]

theorem deptTeamSummaries_congr {st st' : Store} (ht : st'.teams = st.teams)
    (hts : st'.teamSummaries = st.teamSummaries) (d session card : Nat) :
    deptTeamSummaries st' d session card = deptTeamSummaries st d session card := by
  unfold deptTeamSummaries
  rw [hts]
  refine List.filter_congr ?_
  intro r _
  rw [teamDept_congr ht]

theorem computeDeptRow_congr {st st' : Store} (ht : st'.teams = st.teams)
    (hts : st'.teamSummaries = st.teamSummaries) (d session card : Nat) :
    computeDeptRow st' d session card = computeDeptRow st d session card := by
  unfold computeDeptRow
  rw [deptTeamSummaries_congr ht hts]

theorem countP_summary_partition (l : List TeamSummary) :
    l.countP (fun r => r.average_vote == TLColor.green)
      + l.countP (fun r => r.average_vote == TLColor.amber)
      + l.countP (fun r => r.average_vote == TLColor.red) = l.length := by
  induction l with
  | nil => rfl
  | cons r t ih =>
    cases hr : r.average_vote <;> simp [List.countP_cons, hr] <;> omega

theorem computeTeamRow_green (st : Store) (team : TeamRec) (session card : Nat) :
    (computeTeamRow st team session card).green_percentage =
      if 0 < (teamVotes st team session card).length then
        (((teamVotes st team session card).countP
            (fun v => v.value == TLColor.green) : ℚ) /
          ((teamVotes st team session card).length : ℚ)) * 100
      else 0 := rfl

theorem computeTeamRow_amber (st : Store) (team : TeamRec) (session card : Nat) :
    (computeTeamRow st team session card).amber_percentage =
      if 0 < (teamVotes st team session card).length then
        (((teamVotes st team session card).countP
            (fun v => v.value == TLColor.amber) : ℚ) /
          ((teamVotes st team session card).length : ℚ)) * 100
      else 0 := rfl

theorem computeTeamRow_red (st : Store) (team : TeamRec) (session card : Nat) :
    (computeTeamRow st team session card).red_percentage =
      if 0 < (teamVotes st team session card).length then
        (((teamVotes st team session card).countP
            (fun v => v.value == TLColor.red) : ℚ) /
          ((teamVotes st team session card).length : ℚ)) * 100
      else 0 := rfl

/-! ### Claim theorems -/

/-- C2: the status classification applied to a triple (green, amber, red)
returns green if green ≥ amber and green ≥ red, otherwise amber if
amber ≥ green and amber ≥ red, otherwise red — ties resolve with
precedence green > amber > red (classify 5 5 5 = green,
classify 0 5 5 = amber) — and the same rule yields the team rollup's
`average_vote` from its vote percentages and the department rollup's
`average_vote` from its mean percentages. -/
theorem C2_classifier_tie_break :
    (∀ g a r : ℚ, classify g a r = specClassify g a r)
    ∧ classify 5 5 5 = TLColor.green
    ∧ classify 0 5 5 = TLColor.amber
    ∧ (∀ (st : Store) (team : TeamRec) (session card : Nat),
        (computeTeamRow st team session card).average_vote =
          classify (computeTeamRow st team session card).green_percentage
            (computeTeamRow st team session card).amber_percentage
            (computeTeamRow st team session card).red_percentage)
    ∧ (∀ (st : Store) (d session card : Nat),
        (computeDeptRow st d session card).average_vote =
          classify (computeDeptRow st d session card).green_percentage
            (computeDeptRow st d session card).amber_percentage
            (computeDeptRow st d session card).red_percentage) := by
  refine ⟨fun g a r => rfl, ?_, ?_, fun st team session card => rfl,
    fun st d session card => rfl⟩
  · norm_num [classify]
  · norm_num [classify]

/-- C7: when the vote set for (team, session, card) is empty,
`update_team_summary` performs no write at all — the whole store,
including any stale summary row, is unchanged. -/
theorem C7_empty_votes_no_write (st : Store) (team : TeamRec) (session card : Nat)
    (h : teamVotes st team session card = []) :
    update_team_summary team session card st = st :=
  update_team_summary_of_empty (by simp [h])

/-- A store holding a vote for card 1 and a stale team summary for card 2:
the card-2 vote set is empty. -/
def W7 : Store :=
  { users := [⟨1, some 1⟩]
    teams := [⟨1, 7⟩]
    sessions := [⟨1, 0, true⟩]
    votes := [⟨1, 1, 1, TLColor.green, Progress.same⟩]
    teamSummaries := [⟨1, 1, 2, TLColor.green, Progress.same, 100, 0, 0⟩]
    deptSummaries := [] }

theorem C7_empty_votes_no_write_witness :
    teamVotes W7 ⟨1, 7⟩ 1 2 = [] ∧ update_team_summary ⟨1, 7⟩ 1 2 W7 = W7 :=
  ⟨by decide, C7_empty_votes_no_write W7 ⟨1, 7⟩ 1 2 (by decide)⟩

/-- C5: for every non-empty vote set, the `TeamSummary` written by
`update_team_summary` (readable back under its unique key) has
percentages summing to exactly 100, each percentage being the value's
count over the total count times 100. -/
theorem C5_percentages_sum_100 (st : Store) (team : TeamRec) (session card : Nat)
    (h : teamVotes st team session card ≠ []) :
    findTeamSummary (update_team_summary team session card st) team.id session card =
      some (computeTeamRow st team session card)
    ∧ (computeTeamRow st team session card).green_percentage
        + (computeTeamRow st team session card).amber_percentage
        + (computeTeamRow st team session card).red_percentage = 100 := by
  have hne : (teamVotes st team session card).isEmpty = false :=
    List.isEmpty_eq_false.mpr h
  constructor
  · rw [update_team_summary_of_nonempty hne]
    unfold findTeamSummary
    rw [udds_teamSummaries]
    exact find?_upsertBy (tsKey_computeTeamRow st team session card) _
  · have hlen : 0 < (teamVotes st team session card).length := List.length_pos.mpr h
    rw [computeTeamRow_green, computeTeamRow_amber, computeTeamRow_red,
      if_pos hlen, if_pos hlen, if_pos hlen]
    have hcast : (((teamVotes st team session card).length : ℚ)) ≠ 0 :=
      Nat.cast_ne_zero.mpr (Nat.pos_iff_ne_zero.mp hlen)
    have hpart := countP_vote_partition (teamVotes st team session card)
    have hsum :
        (((teamVotes st team session card).countP
            (fun v => v.value == TLColor.green) : ℚ))
          + (((teamVotes st team session card).countP
              (fun v => v.value == TLColor.amber) : ℚ))
          + (((teamVotes st team session card).countP
              (fun v => v.value == TLColor.red) : ℚ))
          = ((teamVotes st team session card).length : ℚ) := by
      exact_mod_cast hpart
    field_simp
    linarith

/-- The spec's first scenario store: 3 users of one team voting green,
green, amber on one card in one session. -/
def W5 : Store :=
  { users := [⟨1, some 1⟩, ⟨2, some 1⟩, ⟨3, some 1⟩]
    teams := [⟨1, 7⟩]
    sessions := [⟨1, 0, true⟩]
    votes := [⟨1, 1, 1, TLColor.green, Progress.better⟩,
              ⟨2, 1, 1, TLColor.green, Progress.better⟩,
              ⟨3, 1, 1, TLColor.amber, Progress.same⟩]
    teamSummaries := []
    deptSummaries := [] }

theorem C5_percentages_sum_100_witness :
    teamVotes W5 ⟨1, 7⟩ 1 1 ≠ []
    ∧ (computeTeamRow W5 ⟨1, 7⟩ 1 1).green_percentage
        + (computeTeamRow W5 ⟨1, 7⟩ 1 1).amber_percentage
        + (computeTeamRow W5 ⟨1, 7⟩ 1 1).red_percentage = 100 :=
  ⟨by decide, (C5_percentages_sum_100 W5 ⟨1, 7⟩ 1 1 (by decide)).2⟩

/-- C1: when the team-summary set of a (department, session, card) is
non-empty, `update_department_summary` writes a row (readable back under
its unique key) whose green, amber, and red percentages each equal the
unweighted arithmetic mean — sum divided by number of team rows — of the
corresponding percentages over those rows, regardless of team sizes. -/
theorem C1_department_unweighted_mean (st : Store) (d session card : Nat)
    (h : deptTeamSummaries st d session card ≠ []) :
    findDeptSummary (update_department_summary d session card st) d session card =
      some (computeDeptRow st d session card)
    ∧ (computeDeptRow st d session card).green_percentage =
        ((deptTeamSummaries st d session card).map (fun r => r.green_percentage)).sum /
          ((deptTeamSummaries st d session card).length : ℚ)
    ∧ (computeDeptRow st d session card).amber_percentage =
        ((deptTeamSummaries st d session card).map (fun r => r.amber_percentage)).sum /
          ((deptTeamSummaries st d session card).length : ℚ)
    ∧ (computeDeptRow st d session card).red_percentage =
        ((deptTeamSummaries st d session card).map (fun r => r.red_percentage)).sum /
          ((deptTeamSummaries st d session card).length : ℚ) := by
  have hne : (deptTeamSummaries st d session card).isEmpty = false :=
    List.isEmpty_eq_false.mpr h
  refine ⟨?_, rfl, rfl, rfl⟩
  rw [update_department_summary_of_nonempty hne]
  unfold findDeptSummary
  exact find?_upsertBy (dsKey_computeDeptRow st d session card) _

/-- The claim's discriminating scenario: team 1 has a single user voting
green, team 2 has ten users all voting red, both teams in department 7. -/
def W1 : Store :=
  { users := [⟨1, some 1⟩, ⟨2, some 2⟩, ⟨3, some 2⟩, ⟨4, some 2⟩, ⟨5, some 2⟩,
              ⟨6, some 2⟩, ⟨7, some 2⟩, ⟨8, some 2⟩, ⟨9, some 2⟩, ⟨10, some 2⟩,
              ⟨11, some 2⟩]
    teams := [⟨1, 7⟩, ⟨2, 7⟩]
    sessions := [⟨1, 0, true⟩]
    votes := [⟨1, 1, 1, TLColor.green, Progress.better⟩,
              ⟨2, 1, 1, TLColor.red, Progress.worse⟩,
              ⟨3, 1, 1, TLColor.red, Progress.worse⟩,
              ⟨4, 1, 1, TLColor.red, Progress.worse⟩,
              ⟨5, 1, 1, TLColor.red, Progress.worse⟩,
              ⟨6, 1, 1, TLColor.red, Progress.worse⟩,
              ⟨7, 1, 1, TLColor.red, Progress.worse⟩,
              ⟨8, 1, 1, TLColor.red, Progress.worse⟩,
              ⟨9, 1, 1, TLColor.red, Progress.worse⟩,
              ⟨10, 1, 1, TLColor.red, Progress.worse⟩,
              ⟨11, 1, 1, TLColor.red, Progress.worse⟩]
    teamSummaries := []
    deptSummaries := [] }

/-- The store after both team rollups have run for (session 1, card 1). -/
def ST1 : Store := update_team_summary ⟨2, 7⟩ 1 1 (update_team_summary ⟨1, 7⟩ 1 1 W1)

set_option maxHeartbeats 2000000 in
theorem C1_department_unweighted_mean_witness :
    deptTeamSummaries ST1 7 1 1 ≠ []
    ∧ findDeptSummary (update_department_summary 7 1 1 ST1) 7 1 1 =
        some (computeDeptRow ST1 7 1 1)
    ∧ (computeDeptRow ST1 7 1 1).green_percentage = 50
    ∧ (computeDeptRow ST1 7 1 1).red_percentage = 50 := by
  have hne : deptTeamSummaries ST1 7 1 1 ≠ [] := by decide
  have hmain := C1_department_unweighted_mean ST1 7 1 1 hne
  refine ⟨hne, hmain.1, ?_, ?_⟩
  · rw [hmain.2.1]
    norm_num [ST1, W1, update_team_summary, update_department_summary, teamVotes,
      userTeam, computeTeamRow, computeDeptRow, deptTeamSummaries, teamDept,
      upsertBy, tsKey, dsKey, classify, classifyProgress, List.countP_cons,
      List.countP_nil, beq_iff_eq, (show TLColor.red ≠ TLColor.green by decide),
      (show TLColor.green ≠ TLColor.red by decide)]
  · rw [hmain.2.2.2]
    norm_num [ST1, W1, update_team_summary, update_department_summary, teamVotes,
      userTeam, computeTeamRow, computeDeptRow, deptTeamSummaries, teamDept,
      upsertBy, tsKey, dsKey, classify, classifyProgress, List.countP_cons,
      List.countP_nil, beq_iff_eq, (show TLColor.red ≠ TLColor.green by decide),
      (show TLColor.green ≠ TLColor.red by decide)]

/-- C10: after `update_team_summary` runs on a non-empty vote set, a
`DepartmentSummary` row for (the team's department, session, card)
exists — `Team.department` is non-nullable, so the cascade always fires,
and the team row just written makes the department's team-summary set
non-empty.  The hypothesis `ht` is referential integrity: the teams table
resolves the team's id to its department. -/
theorem C10_cascade_department_row_exists (st : Store) (team : TeamRec)
    (session card : Nat) (hv : teamVotes st team session card ≠ [])
    (ht : teamDept st team.id = some team.department) :
    (findDeptSummary (update_team_summary team session card st)
        team.department session card).isSome = true := by
  have hne : (teamVotes st team session card).isEmpty = false :=
    List.isEmpty_eq_false.mpr hv
  rw [update_team_summary_of_nonempty hne]
  have hmem : computeTeamRow st team session card ∈
      (⟨st.users, st.teams, st.sessions, st.votes,
        upsertBy (tsKey team.id session card) (computeTeamRow st team session card)
          st.teamSummaries, st.deptSummaries⟩ : Store).teamSummaries :=
    upsertBy_mem _ _ _
  have hfilter : computeTeamRow st team session card ∈
      deptTeamSummaries
        (⟨st.users, st.teams, st.sessions, st.votes,
          upsertBy (tsKey team.id session card) (computeTeamRow st team session card)
            st.teamSummaries, st.deptSummaries⟩ : Store)
        team.department session card := by
    unfold deptTeamSummaries
    refine List.mem_filter.mpr ⟨hmem, ?_⟩
    have htA : teamDept
        (⟨st.users, st.teams, st.sessions, st.votes,
          upsertBy (tsKey team.id session card) (computeTeamRow st team session card)
            st.teamSummaries, st.deptSummaries⟩ : Store) team.id =
        some team.department := ht
    simp [computeTeamRow_team, computeTeamRow_session, computeTeamRow_card, htA]
  have hdne :
      (deptTeamSummaries
        (⟨st.users, st.teams, st.sessions, st.votes,
          upsertBy (tsKey team.id session card) (computeTeamRow st team session card)
            st.teamSummaries, st.deptSummaries⟩ : Store)
        team.department session card).isEmpty = false :=
    List.isEmpty_eq_false.mpr (List.ne_nil_of_mem hfilter)
  rw [update_department_summary_of_nonempty hdne]
  unfold findDeptSummary
  rw [find?_upsertBy (dsKey_computeDeptRow _ team.department session card)]
  rfl

/-- One team, one department, one green vote. -/
def W10 : Store :=
  { users := [⟨1, some 1⟩]
    teams := [⟨1, 7⟩]
    sessions := [⟨1, 0, true⟩]
    votes := [⟨1, 1, 1, TLColor.green, Progress.better⟩]
    teamSummaries := []
    deptSummaries := [] }

theorem C10_cascade_department_row_exists_witness :
    teamVotes W10 ⟨1, 7⟩ 1 1 ≠ [] ∧ teamDept W10 1 = some 7
    ∧ (findDeptSummary (update_team_summary ⟨1, 7⟩ 1 1 W10) 7 1 1).isSome = true :=
  ⟨by decide, by decide,
    C10_cascade_department_row_exists W10 ⟨1, 7⟩ 1 1 (by decide) (by decide)⟩

/-- C8: re-submitting a vote for the same (user, card, session) key
overwrites in place — after two successive submissions with different
payloads, exactly one `Vote` row holds that key and it carries the second
payload; counts of any other key are untouched, so uniqueness per key is
preserved by every vote write.  The hypothesis is the store's
`unique_together` invariant for that key before the writes. -/
theorem C8_vote_upsert_overwrites (st : Store) (u c s : Nat) (v1 v2 : TLColor)
    (n1 n2 : Progress) (h : countVotes st.votes u c s ≤ 1) :
    countVotes (submit_vote (submit_vote st u c s v1 n1) u c s v2 n2).votes u c s = 1
    ∧ (submit_vote (submit_vote st u c s v1 n1) u c s v2 n2).votes.find?
        (voteKey u c s) =
        some { user := u, card := c, session := s, value := v2, progress_note := n2 }
    ∧ ∀ u' c' s', ¬(u' = u ∧ c' = c ∧ s' = s) →
        countVotes (submit_vote (submit_vote st u c s v1 n1) u c s v2 n2).votes u' c' s' =
          countVotes st.votes u' c' s' := by
  have hkey1 : voteKey u c s
      ({ user := u, card := c, session := s, value := v1, progress_note := n1 } : Vote) =
      true := by simp [voteKey]
  have hkey2 : voteKey u c s
      ({ user := u, card := c, session := s, value := v2, progress_note := n2 } : Vote) =
      true := by simp [voteKey]
  have hc1 : countVotes (submit_vote st u c s v1 n1).votes u c s = 1 :=
    countP_upsertBy hkey1 _ h
  refine ⟨countP_upsertBy hkey2 _ (le_of_eq hc1), find?_upsertBy hkey2 _, ?_⟩
  intro u' c' s' hne
  have hdisj : ∀ v : Vote, voteKey u c s v = true → voteKey u' c' s' v = false := by
    intro v hv
    simp only [voteKey, Bool.and_eq_true, beq_iff_eq] at hv
    rcases hv with ⟨⟨h1, h2⟩, h3⟩
    by_contra hcon
    have hv' : voteKey u' c' s' v = true := by simpa using hcon
    simp only [voteKey, Bool.and_eq_true, beq_iff_eq] at hv'
    rcases hv' with ⟨⟨g1, g2⟩, g3⟩
    exact hne ⟨by omega, by omega, by omega⟩
  have hk2' : voteKey u' c' s'
      ({ user := u, card := c, session := s, value := v2, progress_note := n2 } : Vote) =
      false := hdisj _ hkey2
  have hk1' : voteKey u' c' s'
      ({ user := u, card := c, session := s, value := v1, progress_note := n1 } : Vote) =
      false := hdisj _ hkey1
  calc countVotes (submit_vote (submit_vote st u c s v1 n1) u c s v2 n2).votes u' c' s'
      = countVotes (submit_vote st u c s v1 n1).votes u' c' s' :=
        countP_upsertBy_other hk2' hdisj _
    _ = countVotes st.votes u' c' s' := countP_upsertBy_other hk1' hdisj _

/-- A store already holding one vote for the key (user 1, card 1,
session 1) and one for another user. -/
def W8 : Store :=
  { users := [⟨1, some 1⟩, ⟨2, some 1⟩]
    teams := [⟨1, 7⟩]
    sessions := [⟨1, 0, true⟩]
    votes := [⟨1, 1, 1, TLColor.green, Progress.same⟩,
              ⟨2, 1, 1, TLColor.amber, Progress.same⟩]
    teamSummaries := []
    deptSummaries := [] }

theorem C8_vote_upsert_overwrites_witness :
    countVotes W8.votes 1 1 1 ≤ 1
    ∧ countVotes
        (submit_vote (submit_vote W8 1 1 1 TLColor.amber Progress.better)
          1 1 1 TLColor.red Progress.worse).votes 1 1 1 = 1
    ∧ (submit_vote (submit_vote W8 1 1 1 TLColor.amber Progress.better)
        1 1 1 TLColor.red Progress.worse).votes.find? (voteKey 1 1 1) =
        some { user := 1, card := 1, session := 1, value := TLColor.red
               progress_note := Progress.worse } :=
  ⟨by decide,
    (C8_vote_upsert_overwrites W8 1 1 1 TLColor.amber TLColor.red Progress.better
      Progress.worse (by decide)).1,
    (C8_vote_upsert_overwrites W8 1 1 1 TLColor.amber TLColor.red Progress.better
      Progress.worse (by decide)).2.1⟩

/-- C9: the participation rate returns 0 when the eligible population of
the scope is empty, otherwise participants/eligible*100 unrounded; the
distinct participants of a scope never exceed its eligible users, so the
rate always lies in [0,100].  The hypothesis is referential integrity:
every vote's user id resolves in the users table (Django's foreign key).
-/
theorem userTeam_resolves {st : Store} {uid t : Nat} (h : userTeam st uid = some t) :
    ∃ u ∈ st.users, u.id = uid ∧ u.team = some t := by
  unfold userTeam at h
  split at h
  · next u heq =>
    refine ⟨u, List.mem_of_find?_eq_some heq, ?_, h⟩
    have := List.find?_some heq
    simpa using this
  · simp at h

theorem C9_participation_rate_bounds (st : Store) (session : Nat) (team : Option Nat)
    (hfk : ∀ v ∈ st.votes, ∃ u ∈ st.users, u.id = v.user) :
    (eligibleCount st team = 0 → get_participation_rate st session team = 0)
    ∧ (eligibleCount st team ≠ 0 →
        get_participation_rate st session team =
          (participantCount st session team : ℚ) / (eligibleCount st team : ℚ) * 100)
    ∧ participantCount st session team ≤ eligibleCount st team
    ∧ 0 ≤ get_participation_rate st session team
    ∧ get_participation_rate st session team ≤ 100 := by
  have hple : participantCount st session team ≤ eligibleCount st team := by
    cases team with
    | some t =>
      have hnodup := List.nodup_dedup
        ((st.votes.filter (fun v =>
          v.session == session && userTeam st v.user == some t)).map (fun v => v.user))
      have hsub : ((st.votes.filter (fun v =>
          v.session == session && userTeam st v.user == some t)).map
            (fun v => v.user)).dedup ⊆
          (st.users.filter (fun u => u.team == some t)).map (fun u => u.id) := by
        intro x hx
        have hx' := List.mem_dedup.mp hx
        rcases List.mem_map.mp hx' with ⟨v, hv, rfl⟩
        rcases List.mem_filter.mp hv with ⟨_, hvpred⟩
        simp only [Bool.and_eq_true, beq_iff_eq] at hvpred
        have hteam : userTeam st v.user = some t := hvpred.2
        rcases userTeam_resolves hteam with ⟨u, humem, huid, huteam⟩
        exact List.mem_map.mpr
          ⟨u, List.mem_filter.mpr ⟨humem, by simp [huteam]⟩, huid⟩
      have := (hnodup.subperm hsub).length_le
      simpa [participantCount, eligibleCount] using this
    | none =>
      have hnodup := List.nodup_dedup
        ((st.votes.filter (fun v => v.session == session)).map (fun v => v.user))
      have hsub : ((st.votes.filter (fun v => v.session == session)).map
            (fun v => v.user)).dedup ⊆ st.users.map (fun u => u.id) := by
        intro x hx
        have hx' := List.mem_dedup.mp hx
        rcases List.mem_map.mp hx' with ⟨v, hv, rfl⟩
        rcases List.mem_filter.mp hv with ⟨hvmem, _⟩
        rcases hfk v hvmem with ⟨u, humem, huid⟩
        exact List.mem_map.mpr ⟨u, humem, huid⟩
      have := (hnodup.subperm hsub).length_le
      simpa [participantCount, eligibleCount] using this
  refine ⟨?_, ?_, hple, ?_, ?_⟩
  · intro h0
    simp [get_participation_rate, h0]
  · intro hne
    have hbeq : (eligibleCount st team == 0) = false := by
      simpa using hne
    simp [get_participation_rate, hbeq]
  · unfold get_participation_rate
    split
    · exact le_refl 0
    · positivity
  · unfold get_participation_rate
    split
    · norm_num
    · next hfalse =>
      have hne : eligibleCount st team ≠ 0 := by simpa using hfalse
      have hpos : (0 : ℚ) < (eligibleCount st team : ℚ) := by
        exact_mod_cast Nat.pos_of_ne_zero hne
      have hfrac : (participantCount st session team : ℚ) /
          (eligibleCount st team : ℚ) ≤ 1 := by
        rw [div_le_one hpos]
        exact_mod_cast hple
      calc (participantCount st session team : ℚ) /
            (eligibleCount st team : ℚ) * 100 ≤ 1 * 100 :=
          mul_le_mul_of_nonneg_right hfrac (by norm_num)
        _ = 100 := by norm_num

/-- Two users in team 1, one of whom voted in session 1. -/
def W9 : Store :=
  { users := [⟨1, some 1⟩, ⟨2, some 1⟩]
    teams := [⟨1, 7⟩]
    sessions := [⟨1, 0, true⟩]
    votes := [⟨1, 1, 1, TLColor.green, Progress.same⟩]
    teamSummaries := []
    deptSummaries := [] }

theorem C9_participation_rate_bounds_witness :
    (∀ v ∈ W9.votes, ∃ u ∈ W9.users, u.id = v.user)
    ∧ participantCount W9 1 (some 1) ≤ eligibleCount W9 (some 1)
    ∧ 0 ≤ get_participation_rate W9 1 (some 1)
    ∧ get_participation_rate W9 1 (some 1) ≤ 100
    ∧ get_participation_rate W9 1 (some 1) = 50 := by
  have hfk : ∀ v ∈ W9.votes, ∃ u ∈ W9.users, u.id = v.user := by decide
  have hmain := C9_participation_rate_bounds W9 1 (some 1) hfk
  refine ⟨hfk, hmain.2.2.1, hmain.2.2.2.1, hmain.2.2.2.2, ?_⟩
  norm_num [get_participation_rate, participantCount, eligibleCount, userTeam, W9,
    List.dedup_cons_of_not_mem]

theorem udds_idem (d session card : Nat) (st : Store) :
    update_department_summary d session card (update_department_summary d session card st) =
      update_department_summary d session card st := by
  cases hd : (deptTeamSummaries st d session card).isEmpty with
  | true => rw [update_department_summary_of_empty hd, update_department_summary_of_empty hd]
  | false =>
    rw [update_department_summary_of_nonempty hd]
    have hteams : ({ st with
        deptSummaries := upsertBy (dsKey d session card) (computeDeptRow st d session card)
          st.deptSummaries } : Store).teams = st.teams := rfl
    have hTS : ({ st with
        deptSummaries := upsertBy (dsKey d session card) (computeDeptRow st d session card)
          st.deptSummaries } : Store).teamSummaries = st.teamSummaries := rfl
    have hd2 : (deptTeamSummaries
        ({ st with
          deptSummaries := upsertBy (dsKey d session card) (computeDeptRow st d session card)
            st.deptSummaries } : Store) d session card).isEmpty = false := by
      rw [deptTeamSummaries_congr hteams hTS]
      exact hd
    rw [update_department_summary_of_nonempty hd2,
      computeDeptRow_congr hteams hTS]
    show ({ st with
      deptSummaries := upsertBy (dsKey d session card) (computeDeptRow st d session card)
        (upsertBy (dsKey d session card) (computeDeptRow st d session card)
          st.deptSummaries) } : Store) = _
    rw [upsertBy_idem (dsKey_computeDeptRow st d session card)]

/-- C6: aggregation is idempotent — running `update_team_summary` twice on
an unchanged vote store leaves the whole store (team and department
summaries included) exactly as after one run, because each run recomputes
from the full current vote set and overwrites by key. -/
theorem C6_aggregation_idempotent (team : TeamRec) (session card : Nat) (st : Store) :
    update_team_summary team session card (update_team_summary team session card st) =
      update_team_summary team session card st := by
  cases hv : (teamVotes st team session card).isEmpty with
  | true =>
    rw [update_team_summary_of_empty hv, update_team_summary_of_empty hv]
  | false =>
    rw [update_team_summary_of_nonempty hv]
    generalize hst1 : update_department_summary team.department session card
        ({ st with
          teamSummaries := upsertBy (tsKey team.id session card)
            (computeTeamRow st team session card) st.teamSummaries } : Store) = st1
    have h1_users : st1.users = st.users := by rw [← hst1, udds_users]
    have h1_votes : st1.votes = st.votes := by rw [← hst1, udds_votes]
    have h1_TS : st1.teamSummaries =
        upsertBy (tsKey team.id session card) (computeTeamRow st team session card)
          st.teamSummaries := by
      rw [← hst1, udds_teamSummaries]
    have hv1 : (teamVotes st1 team session card).isEmpty = false := by
      rw [teamVotes_congr h1_users h1_votes]
      exact hv
    rw [update_team_summary_of_nonempty hv1, computeTeamRow_congr h1_users h1_votes,
      h1_TS, upsertBy_idem (tsKey_computeTeamRow st team session card), ← h1_TS]
    show update_department_summary team.department session card
        ({ st1 with teamSummaries := st1.teamSummaries } : Store) = st1
    rw [show ({ st1 with teamSummaries := st1.teamSummaries } : Store) = st1 from rfl,
      ← hst1]
    exact udds_idem team.department session card _

theorem latest_health_chain_eq (g a r : Nat) (hpos : 0 < g + a + r) :
    (if r > a ∧ r > g then some TLColor.red
     else if a > r ∧ a > g then some TLColor.amber
     else if g > 0 then some TLColor.green
     else none)
    = if a = r ∧ g < a then (if 0 < g then some TLColor.green else none)
      else some (classify (g : ℚ) (a : ℚ) (r : ℚ)) := by
  simp only [classify, ge_iff_le, Nat.cast_le]
  split_ifs <;> first | rfl | (exfalso; omega)

/-- One active session and a team whose two summaries are one amber and
one red: an amber/red tie with no green summary. -/
def W4 : Store :=
  { users := []
    teams := [⟨1, 7⟩]
    sessions := [⟨1, 10, true⟩]
    votes := []
    teamSummaries := [⟨1, 1, 1, TLColor.amber, Progress.same, 0, 100, 0⟩,
                      ⟨1, 1, 2, TLColor.red, Progress.same, 0, 0, 100⟩]
    deptSummaries := [] }

/-- C4 counterexample: team 1 has summaries in the latest active session
of `W4` with counts green 0, amber 1, red 1; the Status Classifier rule on
those counts yields amber, but `get_latest_health_status` returns none —
the claimed equality fails at this concrete input. -/
theorem C4_latest_health_counterexample :
    W4.teamSummaries.filter (fun r => r.team == 1 && r.session == 1) ≠ []
    ∧ (W4.teamSummaries.filter (fun r => r.team == 1 && r.session == 1)).countP
        (fun r => r.average_vote == TLColor.green) = 0
    ∧ (W4.teamSummaries.filter (fun r => r.team == 1 && r.session == 1)).countP
        (fun r => r.average_vote == TLColor.amber) = 1
    ∧ (W4.teamSummaries.filter (fun r => r.team == 1 && r.session == 1)).countP
        (fun r => r.average_vote == TLColor.red) = 1
    ∧ latestActiveSession W4 = some ⟨1, 10, true⟩
    ∧ classify 0 1 1 = TLColor.amber
    ∧ get_latest_health_status W4 1 = none
    ∧ get_latest_health_status W4 1 ≠ some (classify 0 1 1) := by
  have hc : classify 0 1 1 = TLColor.amber := by norm_num [classify]
  refine ⟨by decide, by decide, by decide, by decide, by decide, hc, by decide, ?_⟩
  rw [hc]
  decide

/-- C4 amended: for every team with at least one summary in the latest
active session, `get_latest_health_status` agrees with the Status
Classifier rule on the counts of green/amber/red summaries EXCEPT at an
amber/red tie that beats the green count: there the code returns green
when any green summary exists and none otherwise, whereas the classifier
rule would return amber. -/
theorem C4_latest_health_amended (st : Store) (team : Nat) (latest : SessionRec)
    (hl : latestActiveSession st = some latest)
    (hne : st.teamSummaries.filter (fun r => r.team == team && r.session == latest.id) ≠ []) :
    get_latest_health_status st team =
      (if (st.teamSummaries.filter (fun r =>
            r.team == team && r.session == latest.id)).countP
            (fun r => r.average_vote == TLColor.amber) =
          (st.teamSummaries.filter (fun r =>
            r.team == team && r.session == latest.id)).countP
            (fun r => r.average_vote == TLColor.red)
        ∧ (st.teamSummaries.filter (fun r =>
            r.team == team && r.session == latest.id)).countP
            (fun r => r.average_vote == TLColor.green) <
          (st.teamSummaries.filter (fun r =>
            r.team == team && r.session == latest.id)).countP
            (fun r => r.average_vote == TLColor.amber)
       then
        (if 0 < (st.teamSummaries.filter (fun r =>
            r.team == team && r.session == latest.id)).countP
            (fun r => r.average_vote == TLColor.green)
         then some TLColor.green else none)
       else
        some (classify
          ((st.teamSummaries.filter (fun r =>
            r.team == team && r.session == latest.id)).countP
            (fun r => r.average_vote == TLColor.green) : ℚ)
          ((st.teamSummaries.filter (fun r =>
            r.team == team && r.session == latest.id)).countP
            (fun r => r.average_vote == TLColor.amber) : ℚ)
          ((st.teamSummaries.filter (fun r =>
            r.team == team && r.session == latest.id)).countP
            (fun r => r.average_vote == TLColor.red) : ℚ))) := by
  have hE : (st.teamSummaries.filter (fun r =>
      r.team == team && r.session == latest.id)).isEmpty = false :=
    List.isEmpty_eq_false.mpr hne
  have hpos : 0 < (st.teamSummaries.filter (fun r =>
        r.team == team && r.session == latest.id)).countP
        (fun r => r.average_vote == TLColor.green)
      + (st.teamSummaries.filter (fun r =>
          r.team == team && r.session == latest.id)).countP
          (fun r => r.average_vote == TLColor.amber)
      + (st.teamSummaries.filter (fun r =>
          r.team == team && r.session == latest.id)).countP
          (fun r => r.average_vote == TLColor.red) := by
    rw [countP_summary_partition]
    exact List.length_pos.mpr hne
  unfold get_latest_health_status
  rw [hl]
  simp only [hE, Bool.false_eq_true, if_false]
  exact latest_health_chain_eq _ _ _ hpos

theorem C4_latest_health_amended_witness :
    latestActiveSession W4 = some ⟨1, 10, true⟩
    ∧ W4.teamSummaries.filter (fun r => r.team == 1 && r.session == 1) ≠ []
    ∧ get_latest_health_status W4 1 = none := by
  refine ⟨by decide, by decide, ?_⟩
  rw [C4_latest_health_amended W4 1 ⟨1, 10, true⟩ (by decide) (by decide)]
  decide

theorem mem_sessionsBefore {st : Store} {d : Int} {s : SessionRec} :
    s ∈ sessionsBefore st d ↔ s ∈ st.sessions ∧ s.date < d := by
  unfold sessionsBefore
  rw [(List.perm_insertionSort _ _).mem_iff, List.mem_filter]
  simp

theorem sorted_sessionsBefore (st : Store) (d : Int) :
    (sessionsBefore st d).Pairwise (fun a b => b.date ≤ a.date) := by
  have h1 : IsTotal SessionRec (fun a b => b.date ≤ a.date) :=
    ⟨fun a b => Int.le_total b.date a.date⟩
  have h2 : IsTrans SessionRec (fun a b => b.date ≤ a.date) :=
    ⟨fun _ _ _ hab hbc => le_trans hbc hab⟩
  exact List.sorted_insertionSort _ _

theorem findSome?_sorted_first {f : SessionRec → Option TeamSummary}
    {l : List SessionRec} (hsort : l.Pairwise (fun a b => b.date ≤ a.date))
    {p : TeamSummary} (h : l.findSome? f = some p) :
    ∃ s ∈ l, f s = some p ∧ ∀ s' ∈ l, s.date < s'.date → f s' = none := by
  induction l with
  | nil => simp at h
  | cons a t ih =>
    cases hfa : f a with
    | some q =>
      have hq : q = p := by
        have := h
        rw [List.findSome?_cons, hfa] at this
        exact Option.some.inj this
      refine ⟨a, List.mem_cons_self a t, by rw [hfa, hq], ?_⟩
      intro s' hs' hlt
      rcases List.mem_cons.mp hs' with rfl | hs'
      · exact absurd hlt (lt_irrefl _)
      · have hle := (List.pairwise_cons.mp hsort).1 s' hs'
        exact absurd hlt (not_lt.mpr hle)
    | none =>
      have ht : t.findSome? f = some p := by
        have := h
        rw [List.findSome?_cons, hfa] at this
        exact this
      rcases ih (List.pairwise_cons.mp hsort).2 ht with ⟨s, hsmem, hfs, hmax⟩
      refine ⟨s, List.mem_cons_of_mem a hsmem, hfs, ?_⟩
      intro s' hs' hlt
      rcases List.mem_cons.mp hs' with rfl | hs'
      · exact hfa
      · exact hmax s' hs' hlt

theorem noSummaryFor_iff (st : Store) (ts : TeamSummary) (s : SessionRec) :
    noSummaryFor st ts s ↔
      st.teamSummaries.find? (fun r =>
        r.team == ts.team && r.card == ts.card && r.session == s.id) = none := by
  rw [List.find?_eq_none]
  unfold noSummaryFor
  constructor <;> intro hh r hr <;> have := hh r hr <;> simpa [and_assoc] using this

/-- C3: `calculate_trend` returns none exactly when no session dated
strictly before the summary's session has a `TeamSummary` for the same
team and card; otherwise the previous summary comes from such an earlier
session than which no strictly later qualifying session has a matching
summary (gaps are skipped), and the trend is improving, declining, or
stable according to whether the current `average_vote` score under
green 3 / amber 2 / red 1 is greater than, less than, or equal to the
previous one's.  The hypothesis resolves the summary's session date, as
the session foreign key does in Django. -/
theorem C3_trend_resolution (st : Store) (ts : TeamSummary) (d : Int)
    (h : sessionDate st ts.session = some d) :
    (calculate_trend st ts = none ↔
      ∀ s ∈ st.sessions, s.date < d → noSummaryFor st ts s)
    ∧ ∀ p, get_previous_summary st ts = some p →
        p ∈ st.teamSummaries ∧ p.team = ts.team ∧ p.card = ts.card
        ∧ (∃ s ∈ st.sessions, s.date < d ∧ p.session = s.id
            ∧ ∀ s' ∈ st.sessions, s'.date < d → s.date < s'.date →
                noSummaryFor st ts s')
        ∧ calculate_trend st ts =
            some (if score ts.average_vote > score p.average_vote then Trend.improving
              else if score ts.average_vote < score p.average_vote then Trend.declining
              else Trend.stable) := by
  have hprev : get_previous_summary st ts =
      (sessionsBefore st d).findSome? (fun s =>
        st.teamSummaries.find? (fun r =>
          r.team == ts.team && r.card == ts.card && r.session == s.id)) := by
    unfold get_previous_summary
    rw [h]
  have hct : ∀ q, get_previous_summary st ts = some q →
      calculate_trend st ts =
        some (if score ts.average_vote > score q.average_vote then Trend.improving
          else if score ts.average_vote < score q.average_vote then Trend.declining
          else Trend.stable) := by
    intro q hq
    unfold calculate_trend
    rw [hq]
    dsimp only
    split_ifs <;> rfl
  constructor
  · constructor
    · intro hnone
      cases hgp : get_previous_summary st ts with
      | some q =>
        rw [hct q hgp] at hnone
        cases hnone
      | none =>
        rw [hprev] at hgp
        have hall := List.findSome?_eq_none_iff.mp hgp
        intro s hs hlt
        rw [noSummaryFor_iff]
        exact hall s (mem_sessionsBefore.mpr ⟨hs, hlt⟩)
    · intro hall
      have hgp : get_previous_summary st ts = none := by
        rw [hprev]
        refine List.findSome?_eq_none_iff.mpr ?_
        intro s hs
        rcases mem_sessionsBefore.mp hs with ⟨hmem, hlt⟩
        exact (noSummaryFor_iff st ts s).mp (hall s hmem hlt)
      unfold calculate_trend
      rw [hgp]
  · intro p hp
    have hsome := hp
    rw [hprev] at hsome
    rcases findSome?_sorted_first (sorted_sessionsBefore st d) hsome with
      ⟨s, hsmem, hfs, hmax⟩
    have hpmem : p ∈ st.teamSummaries := List.mem_of_find?_eq_some hfs
    have hppred := List.find?_some hfs
    simp only [Bool.and_eq_true, beq_iff_eq] at hppred
    rcases mem_sessionsBefore.mp hsmem with ⟨hsmem', hslt⟩
    refine ⟨hpmem, hppred.1.1, hppred.1.2, ⟨s, hsmem', hslt, hppred.2, ?_⟩, hct p hp⟩
    intro s' hs' hlt' hgt
    rw [noSummaryFor_iff]
    exact hmax s' (mem_sessionsBefore.mpr ⟨hs', hlt'⟩) hgt

/-- Three sessions on an ascending timeline; team 1 has a green summary
for card 1 in the oldest session, none in the middle one, and a red
summary in the newest. -/
def W3 : Store :=
  { users := []
    teams := [⟨1, 7⟩]
    sessions := [⟨1, 10, true⟩, ⟨2, 20, true⟩, ⟨3, 30, true⟩]
    votes := []
    teamSummaries := [⟨1, 1, 1, TLColor.green, Progress.same, 100, 0, 0⟩,
                      ⟨1, 3, 1, TLColor.red, Progress.worse, 0, 0, 100⟩]
    deptSummaries := [] }

/-- The current summary in `W3`: team 1, session 3, card 1, red. -/
def TS3 : TeamSummary := ⟨1, 3, 1, TLColor.red, Progress.worse, 0, 0, 100⟩

theorem C3_trend_resolution_witness :
    sessionDate W3 TS3.session = some 30
    ∧ get_previous_summary W3 TS3 =
        some ⟨1, 1, 1, TLColor.green, Progress.same, 100, 0, 0⟩
    ∧ calculate_trend W3 TS3 = some Trend.declining := by
  have hgp : get_previous_summary W3 TS3 =
      some ⟨1, 1, 1, TLColor.green, Progress.same, 100, 0, 0⟩ := by decide
  refine ⟨by decide, hgp, ?_⟩
  have hmain := (C3_trend_resolution W3 TS3 30 (by decide)).2
    ⟨1, 1, 1, TLColor.green, Progress.same, 100, 0, 0⟩ hgp
  rw [hmain.2.2.2.2]
  decide

end SkyProject
